import Mathlib

/-!
Verification model of the waitdaemon repository.

The Go sources are shallowly embedded: each Go function that the spec's
testable properties talk about is translated into an executable Lean
definition over `String` / `List` data.  Go's standard-library string
helpers are modelled over `List Char` (ASCII-faithful; the repository only
uses them on ASCII data such as mount options, `/proc` lines and
environment entries).
-/

/-! ## Models of the Go standard-library string helpers -/

/-- Model of Go `strings.HasPrefix`. -/
def goHasPrefix (s pre : String) : Bool := pre.data.isPrefixOf s.data

/-- Model of Go `strings.HasSuffix`. -/
def goHasSuffix (s suf : String) : Bool := suf.data.isSuffixOf s.data

/-- Splits a character list at every occurrence of `sep`; the model of
Go `strings.Split` with a one-character separator (the repository only
splits on `","` and `"\n"`). -/
def splitCharList (sep : Char) : List Char → List (List Char)
  | [] => [[]]
  | x :: xs =>
    if x = sep then [] :: splitCharList sep xs
    else
      match splitCharList sep xs with
      | [] => [[x]]
      | h :: t => (x :: h) :: t

/-- Model of Go `strings.Split(s, sep)` for a one-character separator. -/
def goSplitChar (sep : Char) (s : String) : List String :=
  (splitCharList sep s.data).map (fun l => ⟨l⟩)

/-- Splits a character list at every character satisfying `p`. -/
def splitPredList (p : Char → Bool) : List Char → List (List Char)
  | [] => [[]]
  | x :: xs =>
    if p x then [] :: splitPredList p xs
    else
      match splitPredList p xs with
      | [] => [[x]]
      | h :: t => (x :: h) :: t

/-- Model of Go `strings.Fields`: split on whitespace runs, dropping
empty pieces. -/
def goFields (s : String) : List String :=
  ((splitPredList Char.isWhitespace s.data).map (fun l => (⟨l⟩ : String))).filter
    (fun t => t ≠ "")

/-- Removes leading and trailing whitespace characters from a character
list. -/
def trimList (l : List Char) : List Char :=
  ((l.dropWhile Char.isWhitespace).reverse.dropWhile Char.isWhitespace).reverse

/-- Model of Go `strings.TrimSpace` (ASCII whitespace). -/
def goTrimSpace (s : String) : String := ⟨trimList s.data⟩

/-- ASCII lower-casing of a single character. -/
def asciiLowerChar (c : Char) : Char :=
  if 65 ≤ c.toNat ∧ c.toNat ≤ 90 then Char.ofNat (c.toNat + 32) else c

/-- Model of Go `strings.ToLower` (ASCII fragment of Unicode). -/
def goToLower (s : String) : String := ⟨s.data.map asciiLowerChar⟩

/-- Model of Go `strings.EqualFold` (ASCII fragment of Unicode simple
case folding, which is all the repository feeds it). -/
def goEqualFold (a b : String) : Bool := goToLower a == goToLower b

/-- Model of Go `strings.TrimPrefix`. -/
def goTrimPrefix (s pre : String) : String :=
  if goHasPrefix s pre then ⟨s.data.drop pre.data.length⟩ else s

/-- Model of Go `strings.Join`. -/
def goJoin (sep : String) : List String → String
  | [] => ""
  | x :: rest => rest.foldl (fun acc y => acc ++ sep ++ y) x

/-- Model of Go `fmt` `%q` on the strings the repository formats (image
references and preference names, which contain no characters needing
escapes). -/
def goQuote (s : String) : String := "\"" ++ s ++ "\""

/-- Model of Go `strconv.Atoi`: optional sign followed by one or more
decimal digits; anything else is an error (`none`).  The 64-bit range
check of `Atoi` is not modelled; no claim depends on overflow inputs. -/
def goAtoi (s : String) : Option Int :=
  match s.data with
  | [] => none
  | c :: cs =>
    let signed : Bool × List Char :=
      if c = '-' then (true, cs)
      else if c = '+' then (false, cs)
      else (false, c :: cs)
    if signed.2 = [] then none
    else if signed.2.all (fun d => d.isDigit) then
      let n : Nat := signed.2.foldl (fun acc d => acc * 10 + (d.toNat - 48)) 0
      some (if signed.1 then -(n : Int) else (n : Int))
    else none

/-! ## Data model: `runtime.ContainerInfo` (runtime/runtime.go) -/

/-- `runtime.ContainerInfo`: runtime-agnostic container configuration. -/
structure ContainerInfo where
  Image : String
  Env : List String
  Cmd : List String
  Tty : Bool
  AttachStdout : Bool
  AttachStderr : Bool
  Privileged : Bool
  Binds : List String
  PidMode : String
  Snapshotter : String
deriving DecidableEq

/-! ## Stage controller (main.go) -/

/-- `phaseEnv`: the internal stage-marker variable name. -/
def phaseEnv : String := "PHASE"

/-- `phaseSecondFork`: marker value selecting the second stage. -/
def phaseSecondFork : String := "SECOND_FORK"

/-- `runtimeClientErrorCode`: exit code for runtime-selection failure. -/
def runtimeClientErrorCode : Nat := 12

/-- `firstForkErrorCode`: exit code for a failed first stage. -/
def firstForkErrorCode : Nat := 1

/-- `secondForkErrorCode`: exit code for a failed second stage. -/
def secondForkErrorCode : Nat := 2

/-- `defaultWaitTime` in seconds. -/
def defaultWaitSeconds : Int := 10

/-- The wait-seconds computation of `secondFork`: start from the default,
and overwrite it only when the configured value is non-empty and parses
as an integer. -/
def waitDuration (waitTime : String) : Int :=
  if waitTime ≠ "" then
    match goAtoi waitTime with
    | some i => i
    | none => defaultWaitSeconds
  else defaultWaitSeconds

/-- The command mutation of `runUserImage`: drop the leading token when
the command has more than one token and the leading token equals the
wrapper's own invocation path (`os.Args[0]`). -/
def stripSelfCmd (selfPath : String) (cmd : List String) : List String :=
  if 1 < cmd.length ∧ cmd.headD "" = selfPath then cmd.drop 1 else cmd

/-- `stripEnv`: keep exactly the entries that do not start with
`key ++ "="`. -/
def stripEnv (envs : List String) (key : String) : List String :=
  envs.filter (fun env => !(goHasPrefix env (key ++ "=")))

/-- Pure oracle standing for a `runtime.Runtime` implementation: the
outcome each capability call would produce during one stage. -/
structure RuntimeModel where
  imageExistsR : String → Bool
  pullImageR : String → Except String Unit
  inspectSelfR : Except String ContainerInfo
  runContainerR : ContainerInfo → Except String Unit

/-- Observable runtime calls a stage makes, in order. -/
inductive RTEvent where
  | imageExists (img : String) (result : Bool)
  | pullImage (img : String)
  | inspectSelf
  | sleep (seconds : Int)
  | runContainer (info : ContainerInfo)
deriving DecidableEq

/-- The inspect-mutate-launch tail of `firstFork`, shared by both the
pulled and the already-present branches. -/
def firstForkLaunch (ev : List RTEvent) (rt : RuntimeModel) :
    List RTEvent × Except String Unit :=
  let ev := ev ++ [RTEvent.inspectSelf]
  match rt.inspectSelfR with
  | Except.error e => (ev, Except.error e)
  | Except.ok info =>
    let info2 := { info with Env := info.Env ++ [phaseEnv ++ "=" ++ phaseSecondFork] }
    (ev ++ [RTEvent.runContainer info2], rt.runContainerR info2)

/-- `firstFork`: probe for the image, pull it when absent (propagating a
pull failure), then inspect self, append the phase marker and launch. -/
def firstFork (rt : RuntimeModel) (img : String) :
    List RTEvent × Except String Unit :=
  let ex := rt.imageExistsR img
  let ev := [RTEvent.imageExists img ex]
  if ex = false then
    match rt.pullImageR img with
    | Except.error e =>
      (ev ++ [RTEvent.pullImage img],
        Except.error ("pulling image " ++ goQuote img ++ ": " ++ e))
    | Except.ok _ => firstForkLaunch (ev ++ [RTEvent.pullImage img]) rt
  else firstForkLaunch ev rt

/-- `runUserImage`: inspect self, swap in the user image, strip the
wrapper binary from the command and `PATH` from the environment, then
launch. -/
def runUserImage (rt : RuntimeModel) (selfPath img : String) :
    List RTEvent × Except String Unit :=
  match rt.inspectSelfR with
  | Except.error e => ([RTEvent.inspectSelf], Except.error e)
  | Except.ok info =>
    let info2 := { info with
      Image := img
      Cmd := stripSelfCmd selfPath info.Cmd
      Env := stripEnv info.Env "PATH" }
    ([RTEvent.inspectSelf, RTEvent.runContainer info2], rt.runContainerR info2)

/-- `secondFork`: compute the wait duration, sleep, then run the user
image.  No pull happens in this stage. -/
def secondFork (rt : RuntimeModel) (waitTime img selfPath : String) :
    List RTEvent × Except String Unit :=
  let t := waitDuration waitTime
  let r := runUserImage rt selfPath img
  (RTEvent.sleep t :: r.1, r.2)

/-- The exit-code logic of `main`: selection failure exits 12 before any
stage logic; otherwise the phase marker picks the stage and its error
maps to the stage-specific code, with 0 on success. -/
def mainExitCode (detectOk : Bool) (rt : RuntimeModel)
    (phase waitTime img selfPath : String) : Nat :=
  if detectOk = false then runtimeClientErrorCode
  else if phase = phaseSecondFork then
    match (secondFork rt waitTime img selfPath).2 with
    | Except.error _ => secondForkErrorCode
    | Except.ok _ => 0
  else
    match (firstFork rt img).2 with
    | Except.error _ => firstForkErrorCode
    | Except.ok _ => 0

/-! ## SDK-backed engine (runtime/docker/docker.go) -/

/-- The `container.Config` fields that `Docker.RunContainer` fills in. -/
structure DockerContainerConfig where
  Image : String
  AttachStdout : Bool
  AttachStderr : Bool
  Cmd : List String
  Tty : Bool
  Env : List String
deriving DecidableEq

/-- The `container.HostConfig` fields that `Docker.RunContainer` fills
in. -/
structure DockerHostConfig where
  Privileged : Bool
  Binds : List String
  PidMode : String
deriving DecidableEq

/-- `Docker.RunContainer`: the create-call configuration handed to the
Docker SDK for a given `ContainerInfo`. -/
def dockerRunConfig (info : ContainerInfo) :
    DockerContainerConfig × DockerHostConfig :=
  ({ Image := info.Image
     AttachStdout := info.AttachStdout
     AttachStderr := info.AttachStderr
     Cmd := info.Cmd
     Tty := info.Tty
     Env := info.Env },
   { Privileged := info.Privileged
     Binds := info.Binds
     PidMode := info.PidMode })

/-! ## CLI-backed engine (runtime/nerdctl/nerdctl.go) -/

/-- `mountEntry`: one element of the inspect `Mounts` array. -/
structure MountEntry where
  Type' : String
  Source : String
  Destination : String
  Target : String
  Mode : String
  RW : Bool
  Propagation : String
deriving DecidableEq

/-- The `ctrctl.ContainerRunOpts` fields that `Nerdctl.RunContainer`
fills in (`Pid` is the Go zero value `""` when left unset). -/
structure ContainerRunOpts where
  Detach : Bool
  Env : List String
  Volume : List String
  Tty : Bool
  Privileged : Bool
  Pid : String
deriving DecidableEq

/-- The full argument tuple `Nerdctl.RunContainer` hands to
`ctrctl.ContainerRun`. -/
structure NerdctlRunInvocation where
  opts : ContainerRunOpts
  image : String
  command : String
  args : List String
deriving DecidableEq

/-- `Nerdctl.RunContainer`: the detached run invocation built from a
`ContainerInfo`. -/
def nerdctlRunInvocation (info : ContainerInfo) : NerdctlRunInvocation :=
  let opts : ContainerRunOpts :=
    { Detach := true
      Env := info.Env
      Volume := info.Binds
      Tty := info.Tty
      Privileged := info.Privileged
      Pid := "" }
  let opts := if info.PidMode ≠ "" then { opts with Pid := info.PidMode } else opts
  let cmdArgs : String × List String :=
    match info.Cmd with
    | [] => ("", [])
    | c :: rest => (c, rest)
  { opts := opts, image := info.Image, command := cmdArgs.1, args := cmdArgs.2 }

/-- One iteration of `collectCSV`'s loop body: trim, drop empty and
`bind` tokens, deduplicate case-insensitively via the `seen` set.  The
accumulator is `(opts, seen)`; `seen` is the list of lower-cased options
already accepted (the model of the Go `map[string]bool`). -/
def csvStep (acc : List String × List String) (o : String) :
    List String × List String :=
  let t := goTrimSpace o
  if t = "" || goEqualFold t "bind" then acc
  else
    let lower := goToLower t
    if acc.2.contains lower then acc
    else (acc.1 ++ [t], acc.2 ++ [lower])

/-- `collectCSV`: fold the loop body over the comma-split option
string. -/
def collectCSV (acc : List String × List String) (csv : String) :
    List String × List String :=
  (goSplitChar ',' csv).foldl csvStep acc

/-- The `(opts, seen)` state after `mountOptions` has collected both the
`Mode` and the `Propagation` fields. -/
def collectedAcc (m : MountEntry) : List String × List String :=
  collectCSV (collectCSV ([], []) m.Mode) m.Propagation

/-- `mountOptions`: collect options from `Mode` and `Propagation`, then
append `"ro"` for a read-only mount unless an explicit `rw`/`ro` option
was already collected. -/
def mountOptions (m : MountEntry) : List String :=
  let acc := collectedAcc m
  if !m.RW && !(acc.2.contains "ro") && !(acc.2.contains "rw") then
    acc.1 ++ ["ro"]
  else acc.1

/-- `isNerdctlInternalMount`: destinations whose sources are per-container
temp directories and must not be forwarded. -/
def isNerdctlInternalMount (destination : String) : Bool :=
  destination = "/etc/resolv.conf" || destination = "/etc/hosts" ||
    destination = "/etc/hostname"

/-- One iteration of the bind-synthesis loop in `infoFromInspect`. -/
def synthStep (binds : List String) (m : MountEntry) : List String :=
  if !(goEqualFold m.Type' "bind") then binds
  else
    let dest := if m.Destination = "" then m.Target else m.Destination
    if dest = "" then binds
    else if isNerdctlInternalMount dest then binds
    else
      let bind := m.Source ++ ":" ++ dest
      let opts := mountOptions m
      let bind := if 0 < opts.length then bind ++ ":" ++ goJoin "," opts else bind
      binds ++ [bind]

/-- The bind list `infoFromInspect` synthesizes from the `Mounts` array
when `HostConfig.Binds` is empty. -/
def synthBinds (mounts : List MountEntry) : List String :=
  mounts.foldl synthStep []

/-- The `Config` object of `inspectResponse`. -/
structure InspectConfig where
  Image : String
  Env : List String
  Cmd : List String
  Entrypoint : List String
  Tty : Bool
  AttachStdout : Bool
  AttachStderr : Bool
deriving DecidableEq

/-- The `HostConfig` object of `inspectResponse`. -/
structure InspectHostConfig where
  Privileged : Bool
  Binds : List String
  PidMode : String
deriving DecidableEq

/-- `inspectResponse`: the subset of the CLI inspect JSON the engine
reads. -/
structure InspectResponse where
  Path : String
  Args : List String
  Mounts : List MountEntry
  Config : InspectConfig
  HostConfig : InspectHostConfig
deriving DecidableEq

/-- `infoFromInspect`: build a `ContainerInfo` from inspect output,
falling back to the top-level `Args` for the command and to synthesized
mount binds when the directly-populated fields are empty. -/
def infoFromInspect (resp : InspectResponse) : ContainerInfo :=
  let cmd := resp.Config.Cmd
  let cmd := if cmd.length = 0 ∧ 0 < resp.Args.length then resp.Args else cmd
  let binds := resp.HostConfig.Binds
  let binds :=
    if binds.length = 0 ∧ 0 < resp.Mounts.length then synthBinds resp.Mounts
    else binds
  { Image := resp.Config.Image
    Env := resp.Config.Env
    Cmd := cmd
    Tty := resp.Config.Tty
    AttachStdout := resp.Config.AttachStdout
    AttachStderr := resp.Config.AttachStderr
    Privileged := resp.HostConfig.Privileged
    Binds := binds
    PidMode := resp.HostConfig.PidMode
    Snapshotter := "" }

/-- `detectPrivileged`: scan `/proc/self/status` (given as its contents,
`none` on read error) for the first `CapEff:` line and report whether the
effective capability mask ends in at least nine `f` digits. -/
def detectPrivileged (status : Option String) : Bool :=
  match status with
  | none => false
  | some data =>
    match (goSplitChar '\n' data).find? (fun line => goHasPrefix line "CapEff:") with
    | some line =>
      let capHex := goTrimSpace (goTrimPrefix line "CapEff:")
      goHasSuffix capHex "fffffffff"
    | none => false

/-- `detectPidMode`: scan `/proc/self/status` for the first `NSpid:`
line; exactly one PID entry (two fields) means the host PID namespace. -/
def detectPidMode (status : Option String) : String :=
  match status with
  | none => ""
  | some data =>
    match (goSplitChar '\n' data).find? (fun line => goHasPrefix line "NSpid:") with
    | some line => if (goFields line).length = 2 then "host" else ""
    | none => ""

/-- The post-parse fallback step of `Nerdctl.InspectSelf`: infer the
privilege flag and the PID mode from the process when the inspect output
left them unpopulated. -/
def applyProcFallback (info : ContainerInfo) (status : Option String) :
    ContainerInfo :=
  let info1 :=
    if info.Privileged = false then
      { info with Privileged := detectPrivileged status }
    else info
  if info1.PidMode = "" then { info1 with PidMode := detectPidMode status }
  else info1

/-- `Nerdctl.InspectSelf` after a successful parse: field extraction
followed by the `/proc` fallback. -/
def nerdctlInspectInfo (resp : InspectResponse) (status : Option String) :
    ContainerInfo :=
  applyProcFallback (infoFromInspect resp) status

/-! ## Runtime selector (runtime/detect.go) -/

/-- The engine value `Detect` returns. -/
inductive Engine where
  | docker
  | nerdctl (cli : List String)
deriving DecidableEq

/-- Outcomes of the construction and liveness calls `Detect` can make;
both concrete engines implement `Pingable`, so the liveness check always
runs after a successful construction. -/
structure DetectPorts where
  dockerNewR : Except String Unit
  dockerPingR : Except String Unit
  nerdctlNewR : List String → Except String Unit
  nerdctlPingR : List String → Except String Unit

/-- `dockerSocket` constant. -/
def dockerSocket : String := "/var/run/docker.sock"

/-- The CLI command prefix `tryNerdctl` assembles: `nerdctl`, the
namespace arguments when the namespace is non-empty, and the `nsenter`
prefix when host-namespace mode is enabled. -/
def nerdctlCli (namespace_ : String) (useNsenter : Bool) : List String :=
  let cli := ["nerdctl"]
  let cli := if namespace_ ≠ "" then cli ++ ["--namespace", namespace_] else cli
  if useNsenter then
    ["nsenter", "-t", "1", "-m", "-u", "-i", "-n", "-p", "--"] ++ cli
  else cli

/-- `%v` rendering of a Go string slice, used in error messages. -/
def goSliceFmt (xs : List String) : String := "[" ++ goJoin " " xs ++ "]"

/-- `tryDocker`: construct the SDK engine, then verify liveness. -/
def tryDocker (p : DetectPorts) : Except String Engine :=
  match p.dockerNewR with
  | Except.error e => Except.error ("creating docker runtime: " ++ e)
  | Except.ok _ =>
    match p.dockerPingR with
    | Except.error e => Except.error ("docker daemon not responding: " ++ e)
    | Except.ok _ => Except.ok Engine.docker

/-- `tryNerdctl`: assemble the CLI prefix, construct the CLI engine, then
verify liveness. -/
def tryNerdctl (p : DetectPorts) (namespace_ : String) (useNsenter : Bool) :
    Except String Engine :=
  let cli := nerdctlCli namespace_ useNsenter
  match p.nerdctlNewR cli with
  | Except.error e =>
    Except.error ("creating ctrctl runtime with " ++ goSliceFmt cli ++ ": " ++ e)
  | Except.ok _ =>
    match p.nerdctlPingR cli with
    | Except.error e =>
      Except.error ("container CLI " ++ goSliceFmt cli ++ " not responding: " ++ e)
    | Except.ok _ => Except.ok (Engine.nerdctl cli)

/-- `autoDetect`: SDK first, CLI second, a both-paths error last. -/
def autoDetect (p : DetectPorts) (namespace_ : String) (useNsenter : Bool) :
    Except String Engine :=
  match tryDocker p with
  | Except.ok rt => Except.ok rt
  | Except.error _ =>
    match tryNerdctl p namespace_ useNsenter with
    | Except.ok rt => Except.ok rt
    | Except.error _ =>
      Except.error ("no container runtime found: checked Docker SDK (" ++
        dockerSocket ++ ") and CLI auto-detection (docker, nerdctl)")

/-- `Detect`: dispatch on the preference string. -/
def Detect (preference : String) (p : DetectPorts) (namespace_ : String)
    (useNsenter : Bool) : Except String Engine :=
  if preference = "docker" then tryDocker p
  else if preference = "nerdctl" then tryNerdctl p namespace_ useNsenter
  else if preference = "auto" ∨ preference = "" then
    autoDetect p namespace_ useNsenter
  else
    Except.error ("unknown runtime " ++ goQuote preference ++
      ": valid values are " ++ goQuote "docker" ++ ", " ++ goQuote "nerdctl" ++
      ", " ++ goQuote "auto")

/-! ## Specification-side characterizations

These follow the spec's wording and are compared against the source-side
definitions above in the theorems below. -/

/-- The destination a mount entry resolves to: `Destination`, or `Target`
when `Destination` is empty. -/
def resolvedDest (m : MountEntry) : String :=
  if m.Destination = "" then m.Target else m.Destination

/-- Spec-side filter: a mount contributes a synthesized bind exactly when
it is bind-typed, resolves to a non-empty destination, and that
destination is not an internal transient path. -/
def keepMount (m : MountEntry) : Bool :=
  goEqualFold m.Type' "bind" && !(resolvedDest m == "") &&
    !(isNerdctlInternalMount (resolvedDest m))

/-- Spec-side bind string for a kept mount:
`source:destination[:options]`. -/
def bindStr (m : MountEntry) : String :=
  let bind := m.Source ++ ":" ++ resolvedDest m
  let opts := mountOptions m
  if 0 < opts.length then bind ++ ":" ++ goJoin "," opts else bind

/-! ## Concrete fixtures used by the witness theorems -/

/-- A runtime oracle whose image probe reports the image absent and whose
pull fails. -/
def rtPullFails : RuntimeModel :=
  { imageExistsR := fun _ => false
    pullImageR := fun _ => Except.error "boom"
    inspectSelfR := Except.error "nope"
    runContainerR := fun _ => Except.ok () }

/-- A runtime oracle whose inspection fails (so both stages fail). -/
def rtInspectFails : RuntimeModel :=
  { imageExistsR := fun _ => true
    pullImageR := fun _ => Except.ok ()
    inspectSelfR := Except.error "inspect failed"
    runContainerR := fun _ => Except.ok () }

/-- Selector ports where the SDK liveness check fails while the CLI
engine constructs and responds. -/
def portsSdkDown : DetectPorts :=
  { dockerNewR := Except.ok ()
    dockerPingR := Except.error "down"
    nerdctlNewR := fun _ => Except.ok ()
    nerdctlPingR := fun _ => Except.ok () }

/-- An inspect response with nothing populated beyond an image name, as
the CLI engine family produces. -/
def respSparse : InspectResponse :=
  { Path := "/waitdaemon"
    Args := []
    Mounts := []
    Config :=
      { Image := "ghcr.io/jacobweinstock/waitdaemon:latest"
        Env := []
        Cmd := []
        Entrypoint := []
        Tty := false
        AttachStdout := false
        AttachStderr := false }
    HostConfig := { Privileged := false, Binds := [], PidMode := "" } }

/-- A mount entry targeting an internal transient destination. -/
def mountInternal : MountEntry :=
  { Type' := "bind"
    Source := "/tmp/tink-dns-12345"
    Destination := "/etc/resolv.conf"
    Target := ""
    Mode := "bind,rprivate,rw"
    RW := true
    Propagation := "" }

/-- An ordinary bind mount entry. -/
def mountPlain : MountEntry :=
  { Type' := "bind"
    Source := "/var/run/docker.sock"
    Destination := "/var/run/docker.sock"
    Target := ""
    Mode := "bind,rprivate,rw"
    RW := true
    Propagation := "" }

/-- A read-only mount whose collected options name neither `rw` nor
`ro`. -/
def mountReadOnly : MountEntry :=
  { Type' := "bind"
    Source := "/s"
    Destination := "/d"
    Target := ""
    Mode := "rprivate"
    RW := false
    Propagation := "" }

/-- The spec's mount-option example: mode `"bind,rprivate,rw"` on a
writable mount. -/
def mountCsvExample : MountEntry :=
  { Type' := "bind"
    Source := "/src"
    Destination := "/data"
    Target := ""
    Mode := "bind,rprivate,rw"
    RW := true
    Propagation := "" }

/-- A writable mount whose `Mode` and `Propagation` fields overlap only
up to letter case, exercising case-insensitive deduplication. -/
def mountCsvCased : MountEntry :=
  { Type' := "bind"
    Source := "/src"
    Destination := "/data"
    Target := ""
    Mode := "bind,rprivate,RW"
    RW := true
    Propagation := "rprivate,rw" }

/-! ## Helper lemmas -/

theorem goHasPrefix_iff (s p : String) :
    goHasPrefix s p = true ↔ ∃ v : String, s = p ++ v := by
  unfold goHasPrefix
  rw [List.isPrefixOf_iff_prefix]
  constructor
  · rintro ⟨t, ht⟩
    refine ⟨⟨t⟩, ?_⟩
    apply String.ext
    rw [String.data_append]
    exact ht.symm
  · rintro ⟨v, rfl⟩
    exact ⟨v.data, (String.data_append ..).symm⟩

theorem csvStep_seen (acc : List String × List String) (o : String)
    (h : acc.2 = acc.1.map goToLower) :
    (csvStep acc o).2 = (csvStep acc o).1.map goToLower := by
  unfold csvStep
  by_cases h1 : goTrimSpace o = "" || goEqualFold (goTrimSpace o) "bind"
  · simp only [h1, if_true]
    exact h
  · simp only [h1, if_false]
    by_cases h2 : acc.2.contains (goToLower (goTrimSpace o))
    · simp only [h2, if_true]
      exact h
    · simp only [h2, if_false]
      simp [h]

theorem foldl_csvStep_seen (l : List String) (acc : List String × List String)
    (h : acc.2 = acc.1.map goToLower) :
    (l.foldl csvStep acc).2 = (l.foldl csvStep acc).1.map goToLower := by
  induction l generalizing acc with
  | nil => exact h
  | cons x xs ih =>
    simp only [List.foldl_cons]
    exact ih (csvStep acc x) (csvStep_seen acc x h)

theorem collectCSV_seen (acc : List String × List String) (csv : String)
    (h : acc.2 = acc.1.map goToLower) :
    (collectCSV acc csv).2 = (collectCSV acc csv).1.map goToLower :=
  foldl_csvStep_seen _ acc h

theorem collectedAcc_seen (m : MountEntry) :
    (collectedAcc m).2 = (collectedAcc m).1.map goToLower := by
  unfold collectedAcc
  exact collectCSV_seen _ _ (collectCSV_seen _ _ rfl)

theorem synthStep_eq (binds : List String) (m : MountEntry) :
    synthStep binds m =
      if keepMount m = true then binds ++ [bindStr m] else binds := by
  unfold synthStep keepMount bindStr resolvedDest
  by_cases h1 : goEqualFold m.Type' "bind"
  · by_cases h2 : (if m.Destination = "" then m.Target else m.Destination) = ""
    · simp [h1, h2]
    · by_cases h3 :
        isNerdctlInternalMount (if m.Destination = "" then m.Target else m.Destination)
      · simp [h1, h2, h3]
      · simp [h1, h2, h3]
  · simp [h1]

theorem foldl_synthStep (mounts : List MountEntry) (acc : List String) :
    mounts.foldl synthStep acc = acc ++ (mounts.filter keepMount).map bindStr := by
  induction mounts generalizing acc with
  | nil => simp
  | cons m rest ih =>
    simp only [List.foldl_cons, synthStep_eq, List.filter_cons]
    by_cases h : keepMount m = true
    · simp [h, ih]
    · simp [h, ih]

/-! ## Claim theorems -/

/-- C1: `RunContainer` on both engines passes the `Image`, `Tty`,
`Privileged` and `PidMode` fields of its `ContainerInfo` argument through
to the underlying engine's launch configuration unaltered. -/
theorem C1_run_container_passthrough (info : ContainerInfo) :
    ((dockerRunConfig info).1.Image = info.Image ∧
      (dockerRunConfig info).1.Tty = info.Tty ∧
      (dockerRunConfig info).2.Privileged = info.Privileged ∧
      (dockerRunConfig info).2.PidMode = info.PidMode) ∧
    ((nerdctlRunInvocation info).image = info.Image ∧
      (nerdctlRunInvocation info).opts.Tty = info.Tty ∧
      (nerdctlRunInvocation info).opts.Privileged = info.Privileged ∧
      (nerdctlRunInvocation info).opts.Pid = info.PidMode) := by
  refine ⟨⟨rfl, rfl, rfl, rfl⟩, ?_, ?_, ?_, ?_⟩ <;>
    · unfold nerdctlRunInvocation
      by_cases h : info.PidMode = "" <;> simp [h]

/-- C3 counterexample: with the command consisting of exactly the
wrapper's own invocation path, the leading token equals that path yet the
command mutation removes nothing, refuting the claimed "if and only if". -/
theorem C3_counterexample :
    (["/waitdaemon"] : List String).headD "" = "/waitdaemon" ∧
    stripSelfCmd "/waitdaemon" ["/waitdaemon"] ≠ List.drop 1 ["/waitdaemon"] := by
  constructor
  · rfl
  · intro h
    simp [stripSelfCmd] at h

/-- C3 (amended): the leading token is removed exactly when the command
has more than one token and that token equals the wrapper's invocation
path; the remaining tokens are preserved in order, a single-token command
is never changed, and the spec's two examples hold. -/
theorem C3_strip_cmd_amended :
    (∀ (sp c0 : String) (rest : List String), rest ≠ [] → c0 = sp →
      stripSelfCmd sp (c0 :: rest) = rest) ∧
    (∀ (sp c0 : String) (rest : List String), c0 ≠ sp →
      stripSelfCmd sp (c0 :: rest) = c0 :: rest) ∧
    (∀ sp c0 : String, stripSelfCmd sp [c0] = [c0]) ∧
    stripSelfCmd "/waitdaemon" ["/waitdaemon", "reboot"] = ["reboot"] ∧
    stripSelfCmd "/waitdaemon" ["reboot"] = ["reboot"] := by
  refine ⟨?_, ?_, ?_, ?_, ?_⟩
  · intro sp c0 rest hne heq
    cases rest with
    | nil => exact absurd rfl hne
    | cons y ys => simp [stripSelfCmd, heq]
  · intro sp c0 rest hne
    simp [stripSelfCmd, hne]
  · intro sp c0
    simp [stripSelfCmd]
  · rfl
  · rfl

/-- C3 witness: applying the amended strip lemma at a concrete command. -/
theorem C3_strip_cmd_amended_witness :
    stripSelfCmd "/wd" ("/wd" :: ["ls"]) = ["ls"] :=
  C3_strip_cmd_amended.1 "/wd" "/wd" ["ls"] (by simp) rfl

/-- C5: wait-duration parsing maps `"30"` to 30 seconds, the empty
(absent) value and malformed values to the 10-second default, `"0"` to a
zero delay, and every unparsable value to the default. -/
theorem C5_wait_duration :
    waitDuration "30" = 30 ∧ waitDuration "" = 10 ∧
    waitDuration "abc" = 10 ∧ waitDuration "0" = 0 ∧
    (∀ s : String, goAtoi s = none → waitDuration s = 10) := by
  refine ⟨by decide, by decide, by decide, by decide, ?_⟩
  intro s h
  unfold waitDuration
  by_cases hs : s = "" <;> simp [hs, h, defaultWaitSeconds]

/-- C5 witness: a malformed value falls back to the default. -/
theorem C5_wait_duration_witness : waitDuration "1x" = 10 :=
  C5_wait_duration.2.2.2.2 "1x" (by decide)

/-- C2: the first stage pulls exactly when the local-existence probe
reports the image absent, a pull failure aborts the first stage with an
error, and the second stage never issues a pull. -/
theorem C2_pull_policy :
    (∀ (rt : RuntimeModel) (img : String),
      RTEvent.pullImage img ∈ (firstFork rt img).1 ↔
        rt.imageExistsR img = false) ∧
    (∀ (rt : RuntimeModel) (img e : String),
      rt.imageExistsR img = false → rt.pullImageR img = Except.error e →
      (firstFork rt img).2 =
        Except.error ("pulling image " ++ goQuote img ++ ": " ++ e)) ∧
    (∀ (rt : RuntimeModel) (waitTime img selfPath pulled : String),
      RTEvent.pullImage pulled ∉ (secondFork rt waitTime img selfPath).1) := by
  refine ⟨?_, ?_, ?_⟩
  · intro rt img
    by_cases hex : rt.imageExistsR img = false
    · cases hpull : rt.pullImageR img with
      | error e => simp [firstFork, hex, hpull]
      | ok u =>
        cases hins : rt.inspectSelfR with
        | error e2 => simp [firstFork, firstForkLaunch, hex, hpull, hins]
        | ok info => simp [firstFork, firstForkLaunch, hex, hpull, hins]
    · rw [Bool.not_eq_false] at hex
      cases hins : rt.inspectSelfR with
      | error e2 => simp [firstFork, firstForkLaunch, hex, hins]
      | ok info => simp [firstFork, firstForkLaunch, hex, hins]
  · intro rt img e hex hpull
    simp [firstFork, hex, hpull]
  · intro rt waitTime img selfPath pulled
    cases hins : rt.inspectSelfR with
    | error e2 => simp [secondFork, runUserImage, hins]
    | ok info => simp [secondFork, runUserImage, hins]

/-- C2 witness: with the image absent and the pull failing, the first
stage reports the wrapped pull error. -/
theorem C2_pull_policy_witness :
    (firstFork rtPullFails "alpine").2 =
      Except.error "pulling image \"alpine\": boom" :=
  C2_pull_policy.2.1 rtPullFails "alpine" "boom" rfl rfl

/-- C4: stripping `PATH` leaves no entry of the form `PATH=...`, keeps
every other entry (including `PATH_X=y`-style keys) in their original
relative order, and is idempotent. -/
theorem C4_strip_env :
    (∀ (envs : List String) (e : String), e ∈ stripEnv envs "PATH" →
      ¬ ∃ v : String, e = "PATH=" ++ v) ∧
    (∀ (envs : List String) (e : String), e ∈ envs →
      (¬ ∃ v : String, e = "PATH=" ++ v) → e ∈ stripEnv envs "PATH") ∧
    (∀ envs : List String, (stripEnv envs "PATH").Sublist envs) ∧
    (∀ envs : List String,
      stripEnv (stripEnv envs "PATH") "PATH" = stripEnv envs "PATH") ∧
    stripEnv ["A=1", "PATH=/bin", "PATH_X=y", "PATH=/usr/bin"] "PATH" =
      ["A=1", "PATH_X=y"] := by
  refine ⟨?_, ?_, ?_, ?_, by decide⟩
  · intro envs e hmem hex
    rw [stripEnv, List.mem_filter] at hmem
    have hp := hmem.2
    have ht : goHasPrefix e ("PATH" ++ "=") = true :=
      (goHasPrefix_iff _ _).mpr hex
    rw [ht] at hp
    simp at hp
  · intro envs e hmem hnotv
    rw [stripEnv, List.mem_filter]
    refine ⟨hmem, ?_⟩
    cases hgp : goHasPrefix e ("PATH" ++ "=") with
    | false => rfl
    | true => exact absurd ((goHasPrefix_iff _ _).mp hgp) hnotv
  · intro envs
    exact List.filter_sublist envs
  · intro envs
    rw [stripEnv]
    apply List.filter_eq_self.mpr
    intro a ha
    exact (List.mem_filter.mp ha).2

/-- C4 witness: a non-`PATH` entry survives stripping. -/
theorem C4_strip_env_witness : "A=1" ∈ stripEnv ["PATH=/x", "A=1"] "PATH" :=
  C4_strip_env.2.1 ["PATH=/x", "A=1"] "A=1" (by decide)
    (fun hex => absurd ((goHasPrefix_iff "A=1" ("PATH" ++ "=")).mpr hex) (by decide))

/-- C6: under the auto preference the selector tries the SDK engine
first and returns it on success, falls back to the CLI engine on any SDK
failure, and when both fail it fails with the error naming both attempted
paths. -/
theorem C6_auto_detection :
    (∀ (p : DetectPorts) (ns : String) (u : Bool),
      Detect "auto" p ns u = autoDetect p ns u ∧
      Detect "" p ns u = autoDetect p ns u) ∧
    (∀ (p : DetectPorts) (ns : String) (u : Bool) (e : Engine),
      tryDocker p = Except.ok e → autoDetect p ns u = Except.ok e) ∧
    (∀ (p : DetectPorts) (ns : String) (u : Bool) (err : String) (e : Engine),
      tryDocker p = Except.error err → tryNerdctl p ns u = Except.ok e →
      autoDetect p ns u = Except.ok e) ∧
    (∀ (p : DetectPorts) (ns : String) (u : Bool) (err1 err2 : String),
      tryDocker p = Except.error err1 → tryNerdctl p ns u = Except.error err2 →
      autoDetect p ns u =
        Except.error ("no container runtime found: checked Docker SDK (" ++
          dockerSocket ++ ") and CLI auto-detection (docker, nerdctl)")) := by
  refine ⟨?_, ?_, ?_, ?_⟩
  · intro p ns u
    constructor <;> simp [Detect]
  · intro p ns u e h
    simp [autoDetect, h]
  · intro p ns u err e h1 h2
    simp [autoDetect, h1, h2]
  · intro p ns u err1 err2 h1 h2
    simp [autoDetect, h1, h2]

/-- C6 witness: SDK liveness failing and the CLI path succeeding under
auto yields the CLI engine. -/
theorem C6_auto_detection_witness :
    autoDetect portsSdkDown "tinkerbell" true =
      Except.ok (Engine.nerdctl ["nsenter", "-t", "1", "-m", "-u", "-i",
        "-n", "-p", "--", "nerdctl", "--namespace", "tinkerbell"]) :=
  C6_auto_detection.2.2.1 portsSdkDown "tinkerbell" true
    "docker daemon not responding: down" _ rfl rfl

/-- C7: mode `"bind,rprivate,rw"` on a writable mount yields exactly
`["rprivate", "rw"]` (literal `bind` dropped), deduplication across the
`Mode` and `Propagation` fields is case-insensitive, and a non-writable
mount whose collected options name neither `rw` nor `ro`
(case-insensitively) gets `"ro"` appended. -/
theorem C7_mount_options :
    mountOptions mountCsvExample = ["rprivate", "rw"] ∧
    mountOptions mountCsvCased = ["rprivate", "RW"] ∧
    (∀ m : MountEntry, m.RW = false →
      (∀ o ∈ (collectedAcc m).1, goToLower o ≠ "ro" ∧ goToLower o ≠ "rw") →
      mountOptions m = (collectedAcc m).1 ++ ["ro"]) := by
  refine ⟨by decide, by decide, ?_⟩
  intro m hrw hno
  have hseen := collectedAcc_seen m
  have hro : ((collectedAcc m).2).contains "ro" = false := by
    by_cases h : "ro" ∈ (collectedAcc m).1.map goToLower
    · obtain ⟨o, ho, hlow⟩ := List.mem_map.mp h
      exact absurd hlow (hno o ho).1
    · simp [hseen, h]
  have hrw2 : ((collectedAcc m).2).contains "rw" = false := by
    by_cases h : "rw" ∈ (collectedAcc m).1.map goToLower
    · obtain ⟨o, ho, hlow⟩ := List.mem_map.mp h
      exact absurd hlow (hno o ho).2
    · simp [hseen, h]
  simp [mountOptions, hrw]
  exact ⟨by simpa using hro, by simpa using hrw2⟩

/-- C7 witness: a read-only mount with only a propagation option
collected gets `"ro"` appended. -/
theorem C7_mount_options_witness :
    mountOptions mountReadOnly = (collectedAcc mountReadOnly).1 ++ ["ro"] :=
  C7_mount_options.2.2 mountReadOnly rfl (by decide)

/-- C8: the synthesized bind list is exactly the image of the kept
mounts (bind-typed, non-empty resolved destination, not an internal
transient destination); every produced bind string comes from a kept
mount, every kept mount's bind string is produced, internal transient
destinations are never kept, and when `HostConfig.Binds` is empty the
extracted configuration carries exactly the synthesized list. -/
theorem C8_internal_mounts_excluded :
    (∀ mounts : List MountEntry,
      synthBinds mounts = (mounts.filter keepMount).map bindStr) ∧
    (∀ (mounts : List MountEntry) (b : String), b ∈ synthBinds mounts →
      ∃ m, m ∈ mounts ∧ keepMount m = true ∧ b = bindStr m) ∧
    (∀ (mounts : List MountEntry) (m : MountEntry), m ∈ mounts →
      keepMount m = true → bindStr m ∈ synthBinds mounts) ∧
    (∀ m : MountEntry, isNerdctlInternalMount (resolvedDest m) = true →
      keepMount m = false) ∧
    (∀ resp : InspectResponse, resp.HostConfig.Binds = [] →
      (infoFromInspect resp).Binds = synthBinds resp.Mounts) := by
  refine ⟨?_, ?_, ?_, ?_, ?_⟩
  · intro mounts
    simp [synthBinds, foldl_synthStep]
  · intro mounts b hb
    rw [synthBinds, foldl_synthStep, List.nil_append] at hb
    obtain ⟨m, hm, rfl⟩ := List.mem_map.mp hb
    exact ⟨m, (List.mem_filter.mp hm).1, (List.mem_filter.mp hm).2, rfl⟩
  · intro mounts m hm hk
    rw [synthBinds, foldl_synthStep, List.nil_append]
    exact List.mem_map_of_mem _ (List.mem_filter.mpr ⟨hm, hk⟩)
  · intro m h
    simp [keepMount, h]
  · intro resp hb
    cases hm : resp.Mounts with
    | nil => simp [infoFromInspect, hb, hm, synthBinds]
    | cons a l => simp [infoFromInspect, hb, hm]

/-- C8 witness: an ordinary socket bind is synthesized while an
`/etc/resolv.conf` mount in the same list is not. -/
theorem C8_internal_mounts_excluded_witness :
    bindStr mountPlain ∈ synthBinds [mountInternal, mountPlain] :=
  C8_internal_mounts_excluded.2.2.1 [mountInternal, mountPlain] mountPlain
    (by decide) (by decide)

theorem infoFromInspect_Privileged (resp : InspectResponse) :
    (infoFromInspect resp).Privileged = resp.HostConfig.Privileged := rfl

theorem infoFromInspect_PidMode (resp : InspectResponse) :
    (infoFromInspect resp).PidMode = resp.HostConfig.PidMode := rfl

/-- C9: the CLI engine's `InspectSelf` keeps an inspected privilege flag
or PID mode when present, and otherwise infers them from the process: a
full effective capability mask means privileged and exactly one
PID-namespace entry means host PID mode. -/
theorem C9_inspect_fallback :
    (∀ (resp : InspectResponse) (status : Option String),
      resp.HostConfig.Privileged = true →
      (nerdctlInspectInfo resp status).Privileged = true) ∧
    (∀ (resp : InspectResponse) (status : Option String),
      resp.HostConfig.Privileged = false →
      (nerdctlInspectInfo resp status).Privileged = detectPrivileged status) ∧
    (∀ (resp : InspectResponse) (status : Option String),
      resp.HostConfig.PidMode ≠ "" →
      (nerdctlInspectInfo resp status).PidMode = resp.HostConfig.PidMode) ∧
    (∀ (resp : InspectResponse) (status : Option String),
      resp.HostConfig.PidMode = "" →
      (nerdctlInspectInfo resp status).PidMode = detectPidMode status) ∧
    detectPrivileged (some "CapEff:\t000001ffffffffff") = true ∧
    detectPrivileged (some "CapEff:\t00000000a80425fb") = false ∧
    detectPidMode (some "NSpid:\t4242") = "host" ∧
    detectPidMode (some "NSpid:\t4242\t1") = "" := by
  refine ⟨?_, ?_, ?_, ?_, by decide, by decide, by decide, by decide⟩
  · intro resp status h
    have h1 : (infoFromInspect resp).Privileged = true := by
      rw [infoFromInspect_Privileged, h]
    by_cases hp : (infoFromInspect resp).PidMode = "" <;>
      simp [nerdctlInspectInfo, applyProcFallback, h1, hp]
  · intro resp status h
    have h1 : (infoFromInspect resp).Privileged = false := by
      rw [infoFromInspect_Privileged, h]
    by_cases hp : (infoFromInspect resp).PidMode = "" <;>
      simp [nerdctlInspectInfo, applyProcFallback, h1, hp]
  · intro resp status h
    have h1 : (infoFromInspect resp).PidMode ≠ "" := by
      rw [infoFromInspect_PidMode]; exact h
    by_cases hpriv : (infoFromInspect resp).Privileged = false <;>
      simp [nerdctlInspectInfo, applyProcFallback, h, h1, hpriv,
        infoFromInspect_PidMode]
  · intro resp status h
    have h1 : (infoFromInspect resp).PidMode = "" := by
      rw [infoFromInspect_PidMode, h]
    by_cases hpriv : (infoFromInspect resp).Privileged = false <;>
      simp [nerdctlInspectInfo, applyProcFallback, h1, hpriv]

/-- C9 witness: a sparse inspect response falls back to the capability
probe for the privilege flag. -/
theorem C9_inspect_fallback_witness :
    (nerdctlInspectInfo respSparse (some "CapEff:\t000001ffffffffff")).Privileged =
      detectPrivileged (some "CapEff:\t000001ffffffffff") :=
  C9_inspect_fallback.2.1 respSparse (some "CapEff:\t000001ffffffffff") rfl

/-- C10: the stage controller exits 12 on selection failure, 2 on a
failed second stage, 1 on a failed first stage, 0 on success, and no
other code. -/
theorem C10_exit_codes (detectOk : Bool) (rt : RuntimeModel)
    (phase waitTime img selfPath : String) :
    (detectOk = false →
      mainExitCode detectOk rt phase waitTime img selfPath = 12) ∧
    (detectOk = true → phase = phaseSecondFork →
      ((∃ e, (secondFork rt waitTime img selfPath).2 = Except.error e) →
        mainExitCode detectOk rt phase waitTime img selfPath = 2) ∧
      ((secondFork rt waitTime img selfPath).2 = Except.ok () →
        mainExitCode detectOk rt phase waitTime img selfPath = 0)) ∧
    (detectOk = true → phase ≠ phaseSecondFork →
      ((∃ e, (firstFork rt img).2 = Except.error e) →
        mainExitCode detectOk rt phase waitTime img selfPath = 1) ∧
      ((firstFork rt img).2 = Except.ok () →
        mainExitCode detectOk rt phase waitTime img selfPath = 0)) ∧
    (mainExitCode detectOk rt phase waitTime img selfPath = 0 ∨
      mainExitCode detectOk rt phase waitTime img selfPath = 1 ∨
      mainExitCode detectOk rt phase waitTime img selfPath = 2 ∨
      mainExitCode detectOk rt phase waitTime img selfPath = 12) := by
  refine ⟨?_, ?_, ?_, ?_⟩
  · intro h
    simp [mainExitCode, h, runtimeClientErrorCode]
  · intro h hp
    constructor
    · rintro ⟨e, he⟩
      simp [mainExitCode, h, hp, he, secondForkErrorCode]
    · intro hok
      simp [mainExitCode, h, hp, hok]
  · intro h hp
    constructor
    · rintro ⟨e, he⟩
      simp [mainExitCode, h, hp, he, firstForkErrorCode]
    · intro hok
      simp [mainExitCode, h, hp, hok]
  · cases detectOk with
    | false => simp [mainExitCode, runtimeClientErrorCode]
    | true =>
      by_cases hp : phase = phaseSecondFork
      · cases hsnd : (secondFork rt waitTime img selfPath).2 with
        | error e => simp [mainExitCode, hp, hsnd, secondForkErrorCode]
        | ok u => simp [mainExitCode, hp, hsnd]
      · cases hfst : (firstFork rt img).2 with
        | error e => simp [mainExitCode, hp, hfst, firstForkErrorCode]
        | ok u => simp [mainExitCode, hp, hfst]

/-- C10 witness: selection failure exits with code 12. -/
theorem C10_exit_codes_witness :
    mainExitCode false rtInspectFails "" "" "alpine" "/waitdaemon" = 12 :=
  (C10_exit_codes false rtInspectFails "" "" "alpine" "/waitdaemon").1 rfl

